import Mathlib

/-!
# Verification of the currency-converter tiered cache engine

Shallow embedding of the cache / synchronization core of the
`joeyparis/currency-converter` repository:

* `src/script.js` — `PersistentStorage` (IndexedDB with localStorage
  fallback), `loadCurrencies`, `getRate`;
* `src/sw.js` — the service worker's activate-time generation eviction
  and fetch-interception predicate.

JavaScript values are modelled by the inductive `JsValue` (with a
constructor for JavaScript's `undefined`; numbers are rationals).
Asynchronous store and network operations are modelled by explicit
state passing (`Store`) together with an oracle for the single network
fetch an operation performs (`FetchOutcome`) and an effect trace
(`Effect`).  The flat localStorage backend serialises values as JSON
text; since every value the program stores is JSON-safe, the model
keeps the parsed `JsValue` directly.
-/

set_option linter.unusedVariables false

namespace CurrencyConverter

/-- Model of a JavaScript value as produced by `JSON`-shaped APIs,
plus a constructor for `undefined`.  Numbers are rationals. -/
inductive JsValue where
  | undefined : JsValue
  | null : JsValue
  | bool : Bool → JsValue
  | num : ℚ → JsValue
  | str : String → JsValue
  | obj : List (String × JsValue) → JsValue
  | arr : List JsValue → JsValue

/-- JavaScript truthiness (`undefined`, `null`, `false`, `0`, `""` are
falsy; every object and array is truthy). -/
def truthy : JsValue → Bool
  | .undefined => false
  | .null => false
  | .bool b => b
  | .num q => decide (q ≠ 0)
  | .str s => decide (s ≠ "")
  | .obj _ => true
  | .arr _ => true

/-- Truthiness of a possibly-`undefined` value (`none` plays the role
of a property access that produced `undefined`). -/
def truthyOpt : Option JsValue → Bool
  | some v => truthy v
  | none => false

/-- First binding of a key in an object's field list. -/
def lookupField : List (String × JsValue) → String → Option JsValue
  | [], _ => none
  | (k', v) :: rest, k => if k' = k then some v else lookupField rest k

/-- Property read `v[k]` in a position where `v` is known truthy, so
it cannot throw: objects look the key up, other values yield
`undefined` (modelled as `none`). -/
def jsIndex : JsValue → String → Option JsValue
  | .obj fs, k => lookupField fs k
  | _, _ => none

/-- Property read `v.k` on an arbitrary non-null value; on `null` and
`undefined` JavaScript throws, which callers must rule out. -/
def jsField : JsValue → String → Option JsValue
  | .obj fs, k => lookupField fs k
  | _, _ => none

/-- Collapse an absent property to the `undefined` value. -/
def optToVal : Option JsValue → JsValue
  | some v => v
  | none => .undefined

/-- `v.k`, with `undefined` for a missing property. -/
def jsGetD (v : JsValue) (k : String) : JsValue :=
  optToVal (jsField v k)

/-- Property read that can throw a `TypeError`: reading any property
of `null` or `undefined` throws (`.error ()`). -/
def jsAccessE : JsValue → String → Except Unit (Option JsValue)
  | .undefined, _ => .error ()
  | .null, _ => .error ()
  | .obj fs, k => .ok (lookupField fs k)
  | _, _ => .ok none

/-- Functional update of an object's field list, as done by a
JavaScript assignment or a spread followed by the key: an existing
binding is replaced in place, a new one is appended. -/
def setField : List (String × JsValue) → String → JsValue → List (String × JsValue)
  | [], k, v => [(k, v)]
  | (k', v') :: rest, k, v =>
      if k' = k then (k', v) :: rest else (k', v') :: setField rest k v

/-- Own enumerable `[key, value]` entries of a value, as produced by
`Object.entries` and by object spread (array indices and string
indices become decimal-string keys; other primitives have none). -/
def jsEntries : JsValue → List (String × JsValue)
  | .obj fs => fs
  | .arr es => es.enum.map (fun p => (toString p.1, p.2))
  | .str s => s.data.enum.map (fun p => (toString p.1, .str (String.singleton p.2)))
  | _ => []

/-- The spread `{ ...v, k: x }`: all enumerable entries of `v`, with
`k` bound to `x` (replacing any existing binding for `k`). -/
def spreadSet (v : JsValue) (k : String) (x : JsValue) : JsValue :=
  .obj (setField (jsEntries v) k x)

/-- The keys of an object value (empty for non-objects). -/
def objKeys : JsValue → List String
  | .obj fs => fs.map Prod.fst
  | _ => []

/-- `typeof v === 'object' && v !== null` — true exactly for objects
and arrays. -/
def isObjectType : JsValue → Bool
  | .obj _ => true
  | .arr _ => true
  | _ => false

/-! ## The key-value store abstraction (`PersistentStorage`)

`script.js` lines 78–204.  The structured IndexedDB backend holds one
object store per domain, each created with its own `keyPath`
(script.js 106–116): records in `currencies` are keyed by their
`provider` property, records in `rates` and `settings` by their `key`
property.  `put` keys the record by that property; if the property is
absent or not a valid key, `put` throws a `DataError` which the
surrounding `try` turns into a localStorage write.  When the database
failed to open (`idbAvailable = false`) every call redirects to the
flat localStorage backend, keyed by the bare key string. -/

/-- A primary key of the structured store.  IndexedDB keys relevant to
this program are strings and numbers (it never produces date or array
keys). -/
inductive IdbKey where
  | str : String → IdbKey
  | num : ℚ → IdbKey
deriving DecidableEq

/-- A JavaScript value as an IndexedDB key: strings and numbers are
valid; for anything else `put` throws a `DataError`. -/
def asIdbKey : JsValue → Option IdbKey
  | .str s => some (.str s)
  | .num q => some (.num q)
  | _ => none

/-- The `keyPath` of each object store created by `init`
(script.js 106–116).  A name with no object store makes the
transaction throw, which the callers' `try` turns into the
localStorage fallback. -/
def keyPathOf : String → Option String
  | "currencies" => some "provider"
  | "rates" => some "key"
  | "settings" => some "key"
  | _ => none

/-- State of the two storage backends.  `idb` maps an object-store
name and primary key to the stored record; `flat` is localStorage. -/
structure Store where
  idbAvailable : Bool
  idb : String → IdbKey → Option JsValue
  flat : String → Option JsValue

/-- A `Store` whose structured backend opened and is empty. -/
def emptyIdbStore : Store :=
  { idbAvailable := true, idb := fun _ _ => none, flat := fun _ => none }

/-- A `Store` whose structured backend failed to open (flat fallback
mode), with empty localStorage. -/
def emptyFlatStore : Store :=
  { idbAvailable := false, idb := fun _ _ => none, flat := fun _ => none }

/-- The record handed to `put` by `PersistentStorage.set`: objects are
spread and tagged with the key (`{ ...data, key }`), primitives are
wrapped (`{ key, data }`). -/
def wrapRecord (key : String) (data : JsValue) : JsValue :=
  if isObjectType data then spreadSet data "key" (.str key)
  else .obj [("key", .str key), ("data", data)]

/-- `PersistentStorage.set(store, key, data)` (script.js 121–147).
`put` keys the record by the store's `keyPath` property; a missing
object store or a missing/invalid key-path value throws, landing in
the localStorage fallback of the surrounding `catch`. -/
def psSet (st : Store) (domain key : String) (data : JsValue) : Store :=
  if st.idbAvailable then
    match keyPathOf domain with
    | some kp =>
        match (jsField (wrapRecord key data) kp).bind asIdbKey with
        | some pk =>
            { st with idb := fun d ik =>
                if d = domain ∧ ik = pk then some (wrapRecord key data) else st.idb d ik }
        | none =>
            { st with flat := fun k => if k = key then some data else st.flat k }
    | none =>
        { st with flat := fun k => if k = key then some data else st.flat k }
  else
    { st with flat := fun k => if k = key then some data else st.flat k }

/-- `PersistentStorage.get(store, key)` (script.js 149–176).
`objectStore.get(key)` looks the caller's string key up as the
store's primary key; a missing record resolves to `null`; a found
record is unwrapped through `result.data || result`.  A missing
object store throws, landing in the localStorage fallback. -/
def psGet (st : Store) (domain key : String) : JsValue :=
  if st.idbAvailable then
    match keyPathOf domain with
    | some _ =>
        match st.idb domain (.str key) with
        | none => .null
        | some r =>
            match jsField r "data" with
            | some d => if truthy d then d else r
            | none => r
    | none =>
        match st.flat key with
        | none => .null
        | some v => v
  else
    match st.flat key with
    | none => .null
    | some v => v

/-! ## Providers and request targets -/

/-- The two entries of the `PROVIDERS` table (script.js 6–25). -/
inductive Provider where
  | frankfurter
  | unirateapi
deriving DecidableEq

def Provider.requiresApiKey : Provider → Bool
  | .frankfurter => false
  | .unirateapi => true

def Provider.name : Provider → String
  | .frankfurter => "frankfurter"
  | .unirateapi => "unirateapi"

def Provider.apiBase : Provider → String
  | .frankfurter => "https://api.frankfurter.app"
  | .unirateapi => "https://api.unirateapi.com/api"

def Provider.currenciesEndpoint : Provider → String
  | .frankfurter => "/currencies"
  | .unirateapi => "/currencies"

/-- Truthiness of the global `apiKey` variable (`null` or a string). -/
def hasApiKey : Option String → Bool
  | some s => decide (s ≠ "")
  | none => false

/-- Query-string rendering of `URLSearchParams` (our parameter values
are plain alphanumeric strings, so no percent-encoding arises). -/
def queryString (params : List (String × String)) : String :=
  match params with
  | [] => ""
  | _ => "?" ++ String.intercalate "&" (params.map (fun p => p.1 ++ "=" ++ p.2))

/-- `buildApiUrl` appends `api_key` only when the active provider
requires one and a key is configured (script.js 361–374). -/
def buildApiUrl (p : Provider) (apiKey : Option String) (endpoint : String)
    (params : List (String × String)) : String :=
  let params :=
    if p.requiresApiKey ∧ hasApiKey apiKey then
      params ++ [("api_key", apiKey.getD "")]
    else params
  p.apiBase ++ endpoint ++ queryString params

/-- The rate-request URL built inside `getRate` (script.js 739–748):
frankfurter uses `/latest?from&to&amount=1`, unirateapi the literal
`/rates?from&to`. -/
def rateUrl (p : Provider) (apiKey : Option String) (f t : String) : String :=
  match p with
  | .frankfurter => buildApiUrl p apiKey "/latest" [("from", f), ("to", t), ("amount", "1")]
  | .unirateapi => buildApiUrl p apiKey "/rates" [("from", f), ("to", t)]

/-- The currency-list URL built inside `loadCurrencies`. -/
def currenciesUrl (p : Provider) (apiKey : Option String) : String :=
  buildApiUrl p apiKey p.currenciesEndpoint []

/-! ## Effects and network oracle -/

/-- Observable side effects of a cache operation, in order. -/
inductive Effect where
  | storeRead (domain key : String)
  | storeWrite (domain key : String) (value : JsValue)
  | netFetch (url : String)

/-- Outcome of the one `fetch` an operation performs: the promise
rejects (transport failure), or resolves with a status and the result
of `res.json()` (`none` when the body is not valid JSON). -/
inductive FetchOutcome where
  | failure
  | success (status : Nat) (body : Option JsValue)

/-- Errors thrown by `getRate` / `loadCurrencies`, one constructor per
distinct `throw` site (the source throws `Error`s with these
messages). -/
inductive RateError where
  | apiKeyRequired
  | invalidApiKey
  | networkError (status : Nat)
  | rateNotFound (f t : String)
  | fetchFailed
  | jsonError
  | typeError
deriving DecidableEq

/-! ## Rate parsing and `getRate` (script.js 707–824) -/

/-- The cache key `rate:${currentProvider}:${from}:${to}`. -/
def rateKey (p : Provider) (f t : String) : String :=
  "rate:" ++ p.name ++ ":" ++ f ++ ":" ++ t

/-- The synthetic identity record returned when `from === to`. -/
def syntheticRate (now : ℚ) (today : String) : JsValue :=
  .obj [("rate", .num 1), ("apiDate", .str today),
        ("fetchedAt", .num now), ("source", .str "synthetic")]

/-- `{ ...record, source: s }`. -/
def tagSource (v : JsValue) (s : String) : JsValue :=
  spreadSet v "source" (.str s)

/-- The cascading unirateapi rate extraction (script.js 774–782):
`json.rates && json.rates[to]`, then `json[to]`, then `json.rate`,
then `json.result && json.result[to]`.  Each guard is a JavaScript
truthiness test, so a strategy whose value is falsy falls through.
Defined only for non-null `json` (the caller rules the throw out). -/
def extractUniRate (json : JsValue) (t : String) : Option JsValue :=
  if truthyOpt (jsField json "rates") ∧
      truthyOpt ((jsField json "rates").bind (fun r => jsIndex r t)) then
    (jsField json "rates").bind (fun r => jsIndex r t)
  else if truthyOpt (jsIndex json t) then jsIndex json t
  else if truthyOpt (jsField json "rate") then jsField json "rate"
  else if truthyOpt (jsField json "result") ∧
      truthyOpt ((jsField json "result").bind (fun r => jsIndex r t)) then
    (jsField json "result").bind (fun r => jsIndex r t)
  else none

/-- `json.date || json.updated || json.timestamp || today` for the
unirateapi date (script.js 785). -/
def uniDate (json : JsValue) (today : String) : JsValue :=
  if truthyOpt (jsField json "date") then jsGetD json "date"
  else if truthyOpt (jsField json "updated") then jsGetD json "updated"
  else if truthyOpt (jsField json "timestamp") then jsGetD json "timestamp"
  else .str today

/-- Provider-specific rate extraction (script.js 769–788), returning
the possibly-`undefined` rate and the `apiDate` value, or `.error ()`
when a property access throws a `TypeError` (frankfurter reads
`json.rates[to]` unguarded; both read a property of `json` itself). -/
def parseRate (p : Provider) (json : JsValue) (t today : String) :
    Except Unit (Option JsValue × JsValue) :=
  match p with
  | .frankfurter => do
      let rates ← jsAccessE json "rates"
      let rateOpt ← jsAccessE (optToVal rates) t
      let dateOpt ← jsAccessE json "date"
      pure (rateOpt, optToVal dateOpt)
  | .unirateapi =>
      match json with
      | .null => .error ()
      | .undefined => .error ()
      | _ => .ok (extractUniRate json t, uniDate json today)

/-- The network-and-parse phase of `getRate` (script.js 752–794): the
status checks, `res.json()`, the provider parse, the `!rate` check and
the construction of the record to persist. -/
def fetchParse (p : Provider) (f t : String) (net : FetchOutcome)
    (now : ℚ) (today : String) : Except RateError JsValue :=
  match net with
  | .failure => .error .fetchFailed
  | .success status body =>
      if 200 ≤ status ∧ status < 300 then
        match body with
        | none => .error .jsonError
        | some json =>
            match parseRate p json t today with
            | .error _ => .error .typeError
            | .ok (rateOpt, dateV) =>
                if truthyOpt rateOpt then
                  .ok (.obj [("key", .str (rateKey p f t)), ("rate", optToVal rateOpt),
                             ("apiDate", dateV), ("fetchedAt", .num now)])
                else .error (.rateNotFound f t)
      else
        if status = 401 ∨ status = 403 then .error .invalidApiKey
        else .error (.networkError status)

/-- `getRate(from, to)` (script.js 707–824), with the store threaded
explicitly, the single fetch supplied by the `net` oracle, and
`Date.now()` / today's date supplied as `now` / `today`.  Returns the
result, the store after the call, and the effect trace. -/
def getRate (p : Provider) (apiKey : Option String) (f t : String) (st : Store)
    (net : FetchOutcome) (now : ℚ) (today : String) :
    Except RateError JsValue × Store × List Effect :=
  if f = t then (.ok (syntheticRate now today), st, [])
  else if p.requiresApiKey ∧ ¬ hasApiKey apiKey then
    if truthy (psGet st "rates" (rateKey p f t)) then
      (.ok (tagSource (psGet st "rates" (rateKey p f t)) "cache"), st,
       [.storeRead "rates" (rateKey p f t)])
    else (.error .apiKeyRequired, st, [.storeRead "rates" (rateKey p f t)])
  else
    match fetchParse p f t net now today with
    | .ok record =>
        (.ok (tagSource record "network"), psSet st "rates" (rateKey p f t) record,
         [.netFetch (rateUrl p apiKey f t), .storeWrite "rates" (rateKey p f t) record])
    | .error e =>
        if truthy (psGet st "rates" (rateKey p f t)) then
          (.ok (tagSource (psGet st "rates" (rateKey p f t)) "cache"), st,
           [.netFetch (rateUrl p apiKey f t), .storeRead "rates" (rateKey p f t)])
        else (.error e, st,
              [.netFetch (rateUrl p apiKey f t), .storeRead "rates" (rateKey p f t)])

/-! ## Currency-list parsing and `loadCurrencies` (script.js 568–705) -/

/-- The cache key `currencies-cache-${currentProvider}`. -/
def currKey (p : Provider) : String := "currencies-cache-" ++ p.name

/-- One step of the code-array `forEach` (script.js 620–624): a
3-character string becomes a `code → code` entry. -/
def codeStep (acc : List (String × JsValue)) (e : JsValue) : List (String × JsValue) :=
  match e with
  | .str s => if s.length = 3 then setField acc s (.str s) else acc
  | _ => acc

/-- Fold a list of currency codes into the accumulating mapping. -/
def codesFromList (es : List JsValue) (acc : List (String × JsValue)) :
    List (String × JsValue) :=
  es.foldl codeStep acc

/-- One step of the `Object.entries(...).forEach` (script.js 636–643):
take the key if it has 3 characters, else a 3-character string value. -/
def entryStep (acc : List (String × JsValue)) (p : String × JsValue) :
    List (String × JsValue) :=
  if p.1.length = 3 then setField acc p.1 (.str p.1)
  else codeStep acc p.2

/-- Fold `Object.entries` pairs into the mapping. -/
def codesFromEntries (fs : List (String × JsValue)) (acc : List (String × JsValue)) :
    List (String × JsValue) :=
  fs.foldl entryStep acc

/-- The non-array arm of the unirateapi currency-list parse
(script.js 625–664): a truthy `currencies` property (array or
entries), else a truthy `data` property (array only — a non-array
`data` leaves the mapping empty), else the entries of the response
itself. -/
def parseUniFromObject (json : JsValue) : JsValue :=
  if truthyOpt (jsField json "currencies") then
    match optToVal (jsField json "currencies") with
    | .arr es => .obj (codesFromList es [])
    | cv => .obj (codesFromEntries (jsEntries cv) [])
  else if truthyOpt (jsField json "data") then
    match optToVal (jsField json "data") with
    | .arr es => .obj (codesFromList es [])
    | _ => .obj []
  else .obj (codesFromEntries (jsEntries json) [])

/-- The unirateapi currency-list parse (script.js 616–664): an array
of codes is folded directly; otherwise the property probing of
`parseUniFromObject` runs.  `.error ()` models the `TypeError` thrown
by the first property read on a `null` response. -/
def parseUniCurrencies : JsValue → Except Unit JsValue
  | .null => .error ()
  | .undefined => .error ()
  | .arr es => .ok (.obj (codesFromList es []))
  | .bool b => .ok (parseUniFromObject (.bool b))
  | .num q => .ok (parseUniFromObject (.num q))
  | .str s => .ok (parseUniFromObject (.str s))
  | .obj fs => .ok (parseUniFromObject (.obj fs))

/-- Provider dispatch of the currency-list parse: frankfurter returns
the response object unvalidated (script.js 610–611). -/
def parseCurrencies (p : Provider) (json : JsValue) : Except Unit JsValue :=
  match p with
  | .frankfurter => .ok json
  | .unirateapi => parseUniCurrencies json

/-- The network-and-parse phase of `loadCurrencies` (script.js
590–667), mirroring `fetchParse`. -/
def fetchParseCurrencies (p : Provider) (net : FetchOutcome) :
    Except RateError JsValue :=
  match net with
  | .failure => .error .fetchFailed
  | .success status body =>
      if 200 ≤ status ∧ status < 300 then
        match body with
        | none => .error .jsonError
        | some json =>
            match parseCurrencies p json with
            | .error _ => .error .typeError
            | .ok currencies => .ok currencies
      else
        if status = 401 ∨ status = 403 then .error .invalidApiKey
        else .error (.networkError status)

/-- The cache record `{ provider, data, fetchedAt }` persisted by
`loadCurrencies` (script.js 669–673). -/
def currCacheData (p : Provider) (currencies : JsValue) (now : ℚ) : JsValue :=
  .obj [("provider", .str p.name), ("data", currencies), ("fetchedAt", .num now)]

/-- `loadCurrencies()` (script.js 568–705).  Note the cached-record
guard is `cached && cached.data` on both the missing-credential branch
and the failure-fallback branch. -/
def loadCurrencies (p : Provider) (apiKey : Option String) (st : Store)
    (net : FetchOutcome) (now : ℚ) :
    Except RateError JsValue × Store × List Effect :=
  if p.requiresApiKey ∧ ¬ hasApiKey apiKey then
    if truthy (psGet st "currencies" (currKey p)) ∧
        truthyOpt (jsField (psGet st "currencies" (currKey p)) "data") then
      (.ok (jsGetD (psGet st "currencies" (currKey p)) "data"), st,
       [.storeRead "currencies" (currKey p)])
    else (.error .apiKeyRequired, st, [.storeRead "currencies" (currKey p)])
  else
    match fetchParseCurrencies p net with
    | .ok currencies =>
        (.ok currencies, psSet st "currencies" (currKey p) (currCacheData p currencies now),
         [.netFetch (currenciesUrl p apiKey),
          .storeWrite "currencies" (currKey p) (currCacheData p currencies now)])
    | .error e =>
        if truthy (psGet st "currencies" (currKey p)) ∧
            truthyOpt (jsField (psGet st "currencies" (currKey p)) "data") then
          (.ok (jsGetD (psGet st "currencies" (currKey p)) "data"), st,
           [.netFetch (currenciesUrl p apiKey), .storeRead "currencies" (currKey p)])
        else (.error e, st,
              [.netFetch (currenciesUrl p apiKey), .storeRead "currencies" (currKey p)])

/-! ## The Asset Cache Agent (`sw.js`) -/

/-- `s.startsWith(p)`, computed on the character lists (equivalent to
core `String.startsWith`, but kernel-reducible). -/
def jsStartsWith (s p : String) : Bool :=
  p.data.isPrefixOf s.data

/-- The current generation name `currency-converter-${VERSION}`
(sw.js 3–5). -/
def APP_CACHE : String := "currency-converter-v4-stable"

/-- The generation-name stem `currency-converter-` shared by every
asset-cache generation name. -/
def generationStem : String := "currency-converter-"

/-- The caches selected for deletion by the activate handler
(sw.js 94–96): `key.startsWith('currency-converter-') && key !== APP_CACHE`. -/
def swOldCaches (keys : List String) : List String :=
  keys.filter (fun k => jsStartsWith k generationStem && k ≠ APP_CACHE)

/-- The cache names that survive activation: everything except the
deleted old generations (sw.js 99–104). -/
def swActivateSurvivors (keys : List String) : List String :=
  keys.filter (fun k => ¬ (jsStartsWith k generationStem && k ≠ APP_CACHE))

/-- A request as observed by the service worker's fetch handler. -/
structure SwRequest where
  method : String
  urlProtocol : String
  urlOrigin : String
  urlHostname : String
  mode : String

/-- Whether the fetch handler intercepts a request — i.e. calls
`event.respondWith` and may read from or write into the asset cache
(sw.js 136–151).  A non-intercepted request returns from the handler
before any cache is opened, so it passes through untouched. -/
def swIntercepts (swOrigin : String) (r : SwRequest) : Bool :=
  if r.method ≠ "GET" then false
  else if ¬ jsStartsWith r.urlProtocol "http" then false
  else r.mode = "navigate" || r.urlOrigin = swOrigin || r.urlHostname = "cdn.jsdelivr.net"

/-! ## Concrete fixtures used by witnesses and counterexamples

`mkRat 92 100` is the exact rational 0.92 (the mocked rate of the
spec's round-trip property). -/

def rate092 : ℚ := mkRat 92 100

/-- Payload shape `{rates:{EUR:0.92}}`. -/
def uniPayloadNested : JsValue := .obj [("rates", .obj [("EUR", .num rate092)])]

/-- Payload shape `{EUR:0.92}`. -/
def uniPayloadFlat : JsValue := .obj [("EUR", .num rate092)]

/-- Payload shape `{rate:0.92}`. -/
def uniPayloadSingle : JsValue := .obj [("rate", .num rate092)]

/-- Payload shape `{result:{EUR:0.92}}`. -/
def uniPayloadResult : JsValue := .obj [("result", .obj [("EUR", .num rate092)])]

/-- The record `getRate` returns for any of the four unirateapi
payloads when fetched at time 7 on 2025-10-11. -/
def uniExpectedNetwork : JsValue :=
  .obj [("key", .str "rate:unirateapi:USD:EUR"), ("rate", .num rate092),
        ("apiDate", .str "2025-10-11"), ("fetchedAt", .num 7),
        ("source", .str "network")]

/-- A successful frankfurter USD→EUR response with rate 0.92. -/
def frankBody092 : JsValue :=
  .obj [("rates", .obj [("EUR", .num rate092)]), ("date", .str "2025-01-02")]

/-- The record `getRate` parses from `frankBody092` and persists. -/
def networkRecord092 (now : ℚ) : JsValue :=
  .obj [("key", .str "rate:frankfurter:USD:EUR"), ("rate", .num rate092),
        ("apiDate", .str "2025-01-02"), ("fetchedAt", .num now)]

/-- A cached unirateapi currency mapping. -/
def currMapUSD : JsValue := .obj [("USD", .str "USD")]

/-- The currency-list cache record persisted at time 5. -/
def c3StoredCurrencies : JsValue := currCacheData .unirateapi currMapUSD 5

/-- Structured backend holding that currency-list record. -/
def c3IdbStore : Store := psSet emptyIdbStore "currencies" (currKey .unirateapi) c3StoredCurrencies

/-- Flat fallback backend holding the same record. -/
def c3FlatStore : Store := psSet emptyFlatStore "currencies" (currKey .unirateapi) c3StoredCurrencies

/-- A previously persisted unirateapi USD→EUR rate record. -/
def c3RateRecord : JsValue :=
  .obj [("key", .str (rateKey .unirateapi "USD" "EUR")), ("rate", .num rate092),
        ("apiDate", .str "2025-01-01"), ("fetchedAt", .num 5)]

/-- Structured backend holding that rate record. -/
def c3RateStore : Store := psSet emptyIdbStore "rates" (rateKey .unirateapi "USD" "EUR") c3RateRecord

/-- A GET request of the application to the frankfurter rate API:
cross-origin, non-navigation. -/
def frankfurterApiRequest : SwRequest :=
  { method := "GET", urlProtocol := "https:", urlOrigin := "https://api.frankfurter.app",
    urlHostname := "api.frankfurter.app", mode := "cors" }

/-- A same-origin GET navigation for the app shell. -/
def navigationRequest : SwRequest :=
  { method := "GET", urlProtocol := "https:", urlOrigin := "https://joeyparis.github.io",
    urlHostname := "joeyparis.github.io", mode := "navigate" }

/-- A same-origin POST request: not a GET, so never intercepted. -/
def postFormRequest : SwRequest :=
  { method := "POST", urlProtocol := "https:", urlOrigin := "https://joeyparis.github.io",
    urlHostname := "joeyparis.github.io", mode := "navigate" }

/-- The spec's invariant "exactly 3 uppercase letters" on a currency
code, used to state claim C8. -/
def isUpperCode3 (s : String) : Prop :=
  s.length = 3 ∧ ∀ c ∈ s.data, c.isUpper

/-! ## Helper lemmas -/

theorem lookupField_setField_ne (fs : List (String × JsValue)) (k k' : String)
    (v : JsValue) (h : k ≠ k') :
    lookupField (setField fs k v) k' = lookupField fs k' := by
  induction fs with
  | nil => simp [setField, lookupField, h]
  | cons p rest ih =>
      by_cases hp : p.1 = k
      · simp [setField, lookupField, hp, h]
      · simp only [setField, lookupField, if_neg hp]
        by_cases hq : p.1 = k'
        · simp [lookupField, hq]
        · simp [lookupField, hq, ih]

theorem mem_keys_setField (fs : List (String × JsValue)) (k k' : String) (v : JsValue)
    (h : k' ∈ (setField fs k v).map Prod.fst) :
    k' ∈ fs.map Prod.fst ∨ k' = k := by
  induction fs with
  | nil => simpa [setField] using h
  | cons p rest ih =>
      by_cases hp : p.1 = k
      · simp only [setField, if_pos hp, List.map_cons, List.mem_cons] at h ⊢
        tauto
      · simp only [setField, if_neg hp, List.map_cons, List.mem_cons] at h ⊢
        rcases h with h | h
        · exact Or.inl (Or.inl h)
        · rcases ih h with h' | h'
          · exact Or.inl (Or.inr h')
          · exact Or.inr h'

theorem lookupField_setField_self (fs : List (String × JsValue)) (k : String)
    (v : JsValue) :
    lookupField (setField fs k v) k = some v := by
  induction fs with
  | nil => simp [setField, lookupField]
  | cons p rest ih =>
      by_cases hp : p.1 = k
      · simp [setField, lookupField, hp]
      · simp [setField, lookupField, hp, ih]

/-- The record handed to `put` always carries the storage key in its
`key` property. -/
theorem wrapRecord_key_field (key : String) (v : JsValue) :
    jsField (wrapRecord key v) "key" = some (.str key) := by
  rw [wrapRecord]
  split_ifs with h
  · simp [spreadSet, jsField, lookupField_setField_self]
  · simp [jsField, lookupField]

/-- What a read-back of a just-written key yields, on either backend,
for a domain whose object store is keyed by the `key` property
(`rates` and `settings`): the written record's primary key is the
storage key, so the read finds it. -/
theorem psGet_psSet_keyDomain (st : Store) (domain key : String) (v : JsValue)
    (hkp : keyPathOf domain = some "key") :
    psGet (psSet st domain key v) domain key =
      (if st.idbAvailable then
        match jsField (wrapRecord key v) "data" with
        | some d => if truthy d then d else wrapRecord key v
        | none => wrapRecord key v
      else v) := by
  cases hb : st.idbAvailable
  · simp [psSet, psGet, hb]
  · simp [psSet, psGet, hb, hkp, wrapRecord_key_field, asIdbKey]

/-- Every value the unirateapi extraction chain returns passed a
truthiness guard. -/
theorem extractUniRate_truthy {json : JsValue} {t : String} {v : JsValue}
    (h : extractUniRate json t = some v) : truthy v = true := by
  unfold extractUniRate at h
  split_ifs at h with h1 h2 h3 h4 <;>
    first
      | (rw [h] at h1; exact h1.2)
      | (rw [h] at h2; exact h2)
      | (rw [h] at h3; exact h3)
      | (rw [h] at h4; exact h4.2)
      | exact absurd h (by simp)

/-- `truthyOpt` of the extraction chain decides between the success
and `RateNotFound` branches. -/
theorem truthyOpt_extractUniRate (json : JsValue) (t : String) :
    truthyOpt (extractUniRate json t) = true ↔ extractUniRate json t ≠ none := by
  match he : extractUniRate json t with
  | none => simp [truthyOpt]
  | some v => simp [truthyOpt, extractUniRate_truthy he]

/-- For a non-null, non-undefined response, the unirateapi parse never
throws and returns the extraction chain's result with the probed date. -/
theorem parseRate_uni_not_null {json : JsValue} (t today : String)
    (h1 : json ≠ .null) (h2 : json ≠ .undefined) :
    parseRate .unirateapi json t today
      = .ok (extractUniRate json t, uniDate json today) := by
  cases json <;> first | (exact absurd rfl h1) | (exact absurd rfl h2) | rfl

/-- A record produced by the network-parse phase of `getRate` has no
`source` field (it is the raw parsed record, not a tagged one, and in
particular not a synthetic record). -/
theorem fetchParse_ok_no_source {p : Provider} {f t : String} {net : FetchOutcome}
    {now : ℚ} {today : String} {r : JsValue}
    (h : fetchParse p f t net now today = .ok r) :
    jsField r "source" = none ∧ jsGetD r "key" = .str (rateKey p f t) := by
  match net with
  | .failure => exact absurd h (by simp [fetchParse])
  | .success status body =>
      simp only [fetchParse] at h
      repeat' split at h
      all_goals
        first
          | (cases h; exact ⟨rfl, rfl⟩)
          | exact absurd h (by simp)

/-- One `codeStep` preserves the all-keys-length-3 invariant. -/
theorem codeStep_keys (acc : List (String × JsValue)) (e : JsValue)
    (hacc : ∀ k ∈ acc.map Prod.fst, k.length = 3) :
    ∀ k ∈ (codeStep acc e).map Prod.fst, k.length = 3 := by
  intro k hk
  cases e with
  | str s =>
      rw [codeStep] at hk
      split_ifs at hk with hlen
      · rcases mem_keys_setField _ _ _ _ hk with h' | h'
        · exact hacc _ h'
        · rw [h']; exact hlen
      · exact hacc _ hk
  | undefined => exact hacc _ hk
  | null => exact hacc _ hk
  | bool b => exact hacc _ hk
  | num q => exact hacc _ hk
  | obj fs => exact hacc _ hk
  | arr es => exact hacc _ hk

/-- One `entryStep` preserves the all-keys-length-3 invariant. -/
theorem entryStep_keys (acc : List (String × JsValue)) (p : String × JsValue)
    (hacc : ∀ k ∈ acc.map Prod.fst, k.length = 3) :
    ∀ k ∈ (entryStep acc p).map Prod.fst, k.length = 3 := by
  intro k hk
  rw [entryStep] at hk
  split_ifs at hk with hlen
  · rcases mem_keys_setField _ _ _ _ hk with h' | h'
    · exact hacc _ h'
    · rw [h']; exact hlen
  · exact codeStep_keys acc p.2 hacc k hk

/-- Keys accumulated by `codesFromList` all have length 3, given the
accumulator satisfies the same. -/
theorem codesFromList_keys (es : List JsValue) (acc : List (String × JsValue))
    (hacc : ∀ k ∈ acc.map Prod.fst, k.length = 3) :
    ∀ k ∈ (codesFromList es acc).map Prod.fst, k.length = 3 := by
  induction es generalizing acc with
  | nil => simpa [codesFromList] using hacc
  | cons e rest ih =>
      intro k hk
      rw [codesFromList, List.foldl_cons] at hk
      exact ih _ (codeStep_keys acc e hacc) k (by rw [codesFromList]; exact hk)

/-- Keys accumulated by `codesFromEntries` all have length 3, given
the accumulator satisfies the same. -/
theorem codesFromEntries_keys (fs : List (String × JsValue)) (acc : List (String × JsValue))
    (hacc : ∀ k ∈ acc.map Prod.fst, k.length = 3) :
    ∀ k ∈ (codesFromEntries fs acc).map Prod.fst, k.length = 3 := by
  induction fs generalizing acc with
  | nil => simpa [codesFromEntries] using hacc
  | cons p rest ih =>
      intro k hk
      rw [codesFromEntries, List.foldl_cons] at hk
      exact ih _ (entryStep_keys acc p hacc) k (by rw [codesFromEntries]; exact hk)

/-- Every key of the mapping built by the non-array unirateapi parse
arm has length 3. -/
theorem parseUniFromObject_keys (json : JsValue) :
    ∀ k ∈ objKeys (parseUniFromObject json), k.length = 3 := by
  unfold parseUniFromObject
  split_ifs with h1 h2
  · split
    · simpa [objKeys] using codesFromList_keys _ [] (by simp)
    · simpa [objKeys] using codesFromEntries_keys _ [] (by simp)
  · split
    · simpa [objKeys] using codesFromList_keys _ [] (by simp)
    · simp [objKeys]
  · simpa [objKeys] using codesFromEntries_keys _ [] (by simp)

/-- Every key of a successfully parsed unirateapi currency mapping has
length 3. -/
theorem parseUniCurrencies_keys {json m : JsValue}
    (h : parseUniCurrencies json = .ok m) :
    ∀ k ∈ objKeys m, k.length = 3 := by
  match json with
  | .null => exact absurd h (by simp [parseUniCurrencies])
  | .undefined => exact absurd h (by simp [parseUniCurrencies])
  | .arr es =>
      rw [parseUniCurrencies] at h
      cases h
      simpa [objKeys] using codesFromList_keys _ [] (by simp)
  | .bool b =>
      rw [parseUniCurrencies] at h
      cases h
      exact parseUniFromObject_keys _
  | .num q =>
      rw [parseUniCurrencies] at h
      cases h
      exact parseUniFromObject_keys _
  | .str s =>
      rw [parseUniCurrencies] at h
      cases h
      exact parseUniFromObject_keys _
  | .obj fs =>
      rw [parseUniCurrencies] at h
      cases h
      exact parseUniFromObject_keys _

/-- A duplicate-free list keeps at most one element equal to a fixed
value. -/
theorem filter_eq_length_le_one (l : List String) (a : String) (hnd : l.Nodup) :
    (l.filter (fun k => k = a)).length ≤ 1 := by
  induction l with
  | nil => simp
  | cons x rest ih =>
      rw [List.nodup_cons] at hnd
      rw [List.filter_cons]
      by_cases hx : x = a
      · subst hx
        have hrest : rest.filter (fun k => k = x) = [] := by
          rw [List.filter_eq_nil_iff]
          intro b hb
          simp only [decide_eq_true_eq]
          intro hba
          exact hnd.1 (hba ▸ hb)
        simp [hrest]
      · simp only [hx, decide_False, if_false]
        exact ih hnd.2

/-! ## Claim theorems -/

/-- C1: whenever `from == to`, `getRate` returns the synthetic record
(`rate = 1`, `source = 'synthetic'`) with the store unchanged and an
empty effect trace — no store read, no store write, no network fetch;
and every store write any `getRate` call ever performs happens for a
pair with `from ≠ to` and writes a record with no `source` tag, so a
synthetic record is never persisted to any backend. -/
theorem getRate_synthetic_short_circuit
    (p : Provider) (apiKey : Option String) (f t : String) (st : Store)
    (net : FetchOutcome) (now : ℚ) (today : String) :
    (f = t →
      getRate p apiKey f t st net now today = (.ok (syntheticRate now today), st, []) ∧
      jsGetD (syntheticRate now today) "rate" = .num 1 ∧
      jsGetD (syntheticRate now today) "source" = .str "synthetic") ∧
    (∀ d k v, Effect.storeWrite d k v ∈ (getRate p apiKey f t st net now today).2.2 →
      f ≠ t ∧ jsField v "source" = none) := by
  constructor
  · intro hft
    refine ⟨?_, rfl, rfl⟩
    rw [getRate, if_pos hft]
  · intro d k v hv
    by_cases hft : f = t
    · rw [getRate, if_pos hft] at hv
      simp at hv
    · rw [getRate, if_neg hft] at hv
      refine ⟨hft, ?_⟩
      by_cases hcred : p.requiresApiKey = true ∧ ¬ hasApiKey apiKey = true
      · rw [if_pos hcred] at hv
        split_ifs at hv <;> simp at hv
      · rw [if_neg hcred] at hv
        match hfp : fetchParse p f t net now today with
        | .ok record =>
            rw [hfp] at hv
            simp only [List.mem_cons, List.not_mem_nil, or_false] at hv
            rcases hv with hv | hv
            · exact absurd hv (by simp)
            · cases hv
              exact (fetchParse_ok_no_source hfp).1
        | .error e =>
            rw [hfp] at hv
            split_ifs at hv <;> simp at hv

/-- C1 witness: the synthetic short-circuit at `USD → USD`, and the
no-source-tag property of the record written by a successful
`USD → EUR` fetch. -/
theorem getRate_synthetic_short_circuit_witness :
    getRate .frankfurter none "USD" "USD" emptyIdbStore .failure 1 "2025-10-11"
        = (.ok (syntheticRate 1 "2025-10-11"), emptyIdbStore, []) ∧
    ("USD" ≠ "EUR" ∧ jsField (networkRecord092 7) "source" = none) :=
  ⟨((getRate_synthetic_short_circuit .frankfurter none "USD" "USD" emptyIdbStore
      .failure 1 "2025-10-11").1 rfl).1,
   (getRate_synthetic_short_circuit .frankfurter none "USD" "EUR" emptyIdbStore
      (.success 200 (some frankBody092)) 7 "2025-10-11").2
     "rates" (rateKey .frankfurter "USD" "EUR") (networkRecord092 7)
     (List.Mem.tail _ (List.Mem.head _))⟩

/-- C9: `PersistentStorage.get` on a domain/key with no stored record
resolves to `null` (never a not-found error) on the structured backend
and on the flat fallback backend alike — for an existing object store
the lookup misses and `onsuccess` resolves `null`; for a name with no
object store the call falls back to localStorage, where a missing key
also yields `null`. -/
theorem psGet_missing_key_null (domain key : String) (st : Store) :
    (st.idbAvailable = true → keyPathOf domain ≠ none →
        st.idb domain (.str key) = none → psGet st domain key = .null) ∧
    (st.idbAvailable = true → keyPathOf domain = none →
        st.flat key = none → psGet st domain key = .null) ∧
    (st.idbAvailable = false → st.flat key = none → psGet st domain key = .null) := by
  refine ⟨?_, ?_, ?_⟩
  · intro hb hkp hm
    rcases hkpe : keyPathOf domain with _ | kp
    · exact absurd hkpe hkp
    · simp [psGet, hb, hkpe, hm]
  · intro hb hkp hm
    simp [psGet, hb, hkp, hm]
  · intro hb hm
    simp [psGet, hb, hm]

/-- C9 witness: both empty backends resolve a never-written key to
`null`. -/
theorem psGet_missing_key_null_witness :
    psGet emptyIdbStore "rates" "rate:frankfurter:USD:EUR" = .null ∧
    psGet emptyFlatStore "rates" "rate:frankfurter:USD:EUR" = .null :=
  ⟨(psGet_missing_key_null "rates" "rate:frankfurter:USD:EUR" emptyIdbStore).1
      rfl (by decide) rfl,
   (psGet_missing_key_null "rates" "rate:frankfurter:USD:EUR" emptyFlatStore).2.2 rfl rfl⟩

/-- C10 counterexample: on the structured backend, `set` of the falsy
non-object `0` reads back as the `{key, data}` wrapper — not `0` — and
`set` of the object `{data: 1}` reads back as `1`, not the object
augmented with a `key` property.  Both halves of the claim fail. -/
theorem psRoundTrip_counterexample :
    (psGet (psSet emptyIdbStore "settings" "k" (.num 0)) "settings" "k"
        = .obj [("key", .str "k"), ("data", .num 0)] ∧
      psGet (psSet emptyIdbStore "settings" "k" (.num 0)) "settings" "k" ≠ .num 0) ∧
    (psGet (psSet emptyIdbStore "settings" "k" (.obj [("data", .num 1)])) "settings" "k"
        = .num 1 ∧
      psGet (psSet emptyIdbStore "settings" "k" (.obj [("data", .num 1)])) "settings" "k"
        ≠ .obj [("data", .num 1), ("key", .str "k")]) :=
  ⟨⟨rfl, nofun⟩, ⟨rfl, nofun⟩⟩

/-- C10 amended: on the structured backend, for the domains whose
object store is keyed by the `key` property (`rates` and `settings`),
a truthy non-object value round-trips exactly (the wrapper is
unwrapped); an object whose `data` field is absent or falsy reads back
as the object augmented with the storage key; an object with a truthy
`data` field reads back as that field's value instead.  For the
`currencies` domain (keyPath `provider`), writing a value without a
string/number `provider` property throws `DataError` and lands in
localStorage — nothing enters IndexedDB — and the structured read at
the caller's key then resolves `null`. -/
theorem psRoundTrip_amended (st : Store) (domain key : String)
    (hb : st.idbAvailable = true) (hkp : keyPathOf domain = some "key") :
    ((∀ v : JsValue, isObjectType v = false → truthy v = true →
        psGet (psSet st domain key v) domain key = v) ∧
    (∀ fs, truthyOpt (lookupField fs "data") = false →
        psGet (psSet st domain key (.obj fs)) domain key
          = spreadSet (.obj fs) "key" (.str key)) ∧
    (∀ fs d, lookupField fs "data" = some d → truthy d = true →
        psGet (psSet st domain key (.obj fs)) domain key = d)) ∧
    ((psSet emptyIdbStore "currencies" "c" (.obj [("data", .num 1)])).flat "c"
        = some (.obj [("data", .num 1)]) ∧
    (∀ ik, (psSet emptyIdbStore "currencies" "c" (.obj [("data", .num 1)])).idb
        "currencies" ik = none) ∧
    psGet (psSet emptyIdbStore "currencies" "c" (.obj [("data", .num 1)]))
        "currencies" "c" = .null) := by
  have hkd : ("key" : String) ≠ "data" := by decide
  refine ⟨⟨?_, ?_, ?_⟩, rfl, fun ik => rfl, rfl⟩
  · intro v hobj htr
    rw [psGet_psSet_keyDomain st domain key v hkp, if_pos hb, wrapRecord,
        if_neg (by simp [hobj])]
    simp [jsField, lookupField, htr]
  · intro fs hfalsy
    rw [psGet_psSet_keyDomain st domain key (.obj fs) hkp, if_pos hb, wrapRecord,
        if_pos (by simp [isObjectType])]
    have hlk : jsField (spreadSet (.obj fs) "key" (.str key)) "data"
        = lookupField fs "data" := by
      simp [spreadSet, jsEntries, jsField, lookupField_setField_ne _ _ _ _ hkd]
    rw [hlk]
    match hd : lookupField fs "data" with
    | none => rfl
    | some d =>
        rw [hd] at hfalsy
        simp only [truthyOpt] at hfalsy
        simp [hfalsy]
  · intro fs d hd htr
    rw [psGet_psSet_keyDomain st domain key (.obj fs) hkp, if_pos hb, wrapRecord,
        if_pos (by simp [isObjectType])]
    have hlk : jsField (spreadSet (.obj fs) "key" (.str key)) "data"
        = lookupField fs "data" := by
      simp [spreadSet, jsEntries, jsField, lookupField_setField_ne _ _ _ _ hkd]
    rw [hlk, hd]
    simp [htr]

/-- C10 amended witness: on keyPath-`key` stores, a credential string
round-trips, `{rate: 5}` (no `data` field) reads back augmented with
the key, and `{data: 1}` reads back as `1`. -/
theorem psRoundTrip_amended_witness :
    psGet (psSet emptyIdbStore "settings" "api-key-unirateapi" (.str "secret"))
        "settings" "api-key-unirateapi" = .str "secret" ∧
    psGet (psSet emptyIdbStore "rates" "r" (.obj [("rate", .num 5)])) "rates" "r"
        = spreadSet (.obj [("rate", .num 5)]) "key" (.str "r") ∧
    psGet (psSet emptyIdbStore "settings" "s" (.obj [("data", .num 1)])) "settings" "s"
        = .num 1 :=
  ⟨(psRoundTrip_amended emptyIdbStore "settings" "api-key-unirateapi" rfl rfl).1.1
      (.str "secret") rfl (by decide),
   (psRoundTrip_amended emptyIdbStore "rates" "r" rfl rfl).1.2.1 [("rate", .num 5)] rfl,
   (psRoundTrip_amended emptyIdbStore "settings" "s" rfl rfl).1.2.2 [("data", .num 1)]
      (.num 1) rfl (by decide)⟩

/-- C6: after activation, every stored generation (a cache whose name
carries the `currency-converter-` stem) other than the current one has
been deleted; the survivors among the stored names are exactly the
occurrences of the current generation name, hence at most one
generation remains when the stored names are distinct. -/
theorem swActivate_eviction (keys : List String)
    (hgen : ∀ k ∈ keys, jsStartsWith k generationStem = true)
    (hnd : keys.Nodup) :
    swActivateSurvivors keys = keys.filter (fun k => k = APP_CACHE) ∧
    (∀ k ∈ keys, k ≠ APP_CACHE → k ∈ swOldCaches keys) ∧
    (∀ k ∈ swActivateSurvivors keys, k = APP_CACHE) ∧
    (swActivateSurvivors keys).length ≤ 1 := by
  have hfil : swActivateSurvivors keys = keys.filter (fun k => k = APP_CACHE) := by
    rw [swActivateSurvivors]
    apply List.filter_congr
    intro k hk
    by_cases hke : k = APP_CACHE <;> simp [hgen k hk, hke]
  refine ⟨hfil, ?_, ?_, ?_⟩
  · intro k hk hne
    rw [swOldCaches, List.mem_filter]
    exact ⟨hk, by simp [hgen k hk, hne]⟩
  · intro k hk
    rw [hfil, List.mem_filter] at hk
    simpa using hk.2
  · rw [hfil]
    exact filter_eq_length_le_one keys APP_CACHE hnd

/-- C6 witness: from stored generations `{v1, v2, v4-stable}` with
current generation `v4-stable`, exactly `{v4-stable}` survives. -/
theorem swActivate_eviction_witness :
    swActivateSurvivors
        ["currency-converter-v1", "currency-converter-v2", "currency-converter-v4-stable"]
      = ["currency-converter-v4-stable"] :=
  (swActivate_eviction
      ["currency-converter-v1", "currency-converter-v2", "currency-converter-v4-stable"]
      (by decide) (by decide)).1.trans rfl

/-- C7: a request is intercepted by the fetch handler only if it is a
GET that is a navigation, same-origin, or to the allowed CDN origin
`cdn.jsdelivr.net`; every request outside that set passes through
(`swIntercepts = false`, the handler never touches the asset cache for
it); in particular a GET to the frankfurter rate API is not
intercepted. -/
theorem swFetch_interception (swOrigin : String) (r : SwRequest) :
    (swIntercepts swOrigin r = true →
        r.method = "GET" ∧
        (r.mode = "navigate" ∨ r.urlOrigin = swOrigin ∨
         r.urlHostname = "cdn.jsdelivr.net")) ∧
    (¬ (r.method = "GET" ∧
        (r.mode = "navigate" ∨ r.urlOrigin = swOrigin ∨
         r.urlHostname = "cdn.jsdelivr.net")) →
        swIntercepts swOrigin r = false) ∧
    swIntercepts "https://joeyparis.github.io" frankfurterApiRequest = false := by
  refine ⟨?_, ?_, rfl⟩
  · intro h
    rw [swIntercepts] at h
    split_ifs at h with h1 h2
    refine ⟨not_not.mp h1, ?_⟩
    simp only [Bool.or_eq_true, decide_eq_true_eq] at h
    tauto
  · intro hn
    rw [swIntercepts]
    split_ifs with h1 h2 <;>
      first
        | rfl
        | (push_neg at hn
           have h3 := hn (not_not.mp h1)
           simp [h3.1, h3.2.1, h3.2.2])

/-- C7 witness: the same-origin GET navigation satisfies the
interception condition, and the POST request passes through. -/
theorem swFetch_interception_witness :
    (navigationRequest.method = "GET" ∧
      (navigationRequest.mode = "navigate" ∨
       navigationRequest.urlOrigin = "https://joeyparis.github.io" ∨
       navigationRequest.urlHostname = "cdn.jsdelivr.net")) ∧
    swIntercepts "https://joeyparis.github.io" postFormRequest = false :=
  ⟨(swFetch_interception "https://joeyparis.github.io" navigationRequest).1 rfl,
   (swFetch_interception "https://joeyparis.github.io" postFormRequest).2.1 (by decide)⟩

/-- C4: each of the four tolerated unirateapi payload shapes
`{rates:{EUR:0.92}}`, `{EUR:0.92}`, `{rate:0.92}`, `{result:{EUR:0.92}}`
yields the rate 0.92 (returned as the network-tagged record), and the
network-parse phase of `getRate` fails with the rate-not-found error
exactly when the response parsed without throwing and the entire
extraction chain produced nothing. -/
theorem uniRateParser_shape_tolerance :
    (getRate .unirateapi (some "K") "USD" "EUR" emptyIdbStore
        (.success 200 (some uniPayloadNested)) 7 "2025-10-11").1 = .ok uniExpectedNetwork ∧
    (getRate .unirateapi (some "K") "USD" "EUR" emptyIdbStore
        (.success 200 (some uniPayloadFlat)) 7 "2025-10-11").1 = .ok uniExpectedNetwork ∧
    (getRate .unirateapi (some "K") "USD" "EUR" emptyIdbStore
        (.success 200 (some uniPayloadSingle)) 7 "2025-10-11").1 = .ok uniExpectedNetwork ∧
    (getRate .unirateapi (some "K") "USD" "EUR" emptyIdbStore
        (.success 200 (some uniPayloadResult)) 7 "2025-10-11").1 = .ok uniExpectedNetwork ∧
    (∀ (json : JsValue) (f t today : String) (now : ℚ),
        fetchParse .unirateapi f t (.success 200 (some json)) now today
            = .error (.rateNotFound f t)
          ↔ json ≠ .null ∧ json ≠ .undefined ∧ extractUniRate json t = none) := by
  refine ⟨rfl, rfl, rfl, rfl, ?_⟩
  intro json f t today now
  have hred : fetchParse .unirateapi f t (.success 200 (some json)) now today
      = (match parseRate .unirateapi json t today with
         | .error _ => .error .typeError
         | .ok (rateOpt, dateV) =>
             if truthyOpt rateOpt then
               .ok (.obj [("key", .str (rateKey .unirateapi f t)), ("rate", optToVal rateOpt),
                          ("apiDate", dateV), ("fetchedAt", .num now)])
             else .error (.rateNotFound f t)) := rfl
  by_cases hnull : json = .null
  · subst hnull
    simp [hred, parseRate]
  by_cases hnotun : json = .undefined
  · subst hnotun
    simp [hred, parseRate]
  rw [hred, parseRate_uni_not_null t today hnull hnotun]
  rcases he : extractUniRate json t with _ | v
  · simp [truthyOpt, hnull, hnotun]
  · simp [truthyOpt, extractUniRate_truthy he, hnull, hnotun]

/-- C4 witness: an empty-object payload exhausts every extraction
strategy, so the parse fails with the rate-not-found error. -/
theorem uniRateParser_shape_tolerance_witness :
    fetchParse .unirateapi "USD" "EUR" (.success 200 (some (.obj []))) 7 "2025-10-11"
      = .error (.rateNotFound "USD" "EUR") :=
  (uniRateParser_shape_tolerance.2.2.2.2 (.obj []) "USD" "EUR" "2025-10-11" 7).mpr
    ⟨nofun, nofun, rfl⟩

/-- C5: on a non-success HTTP status, `getRate` produces the
invalid-credential error for 401/403 and the status-carrying network
error otherwise, and in both cases first falls back to the cached
record for the key (returned tagged `cache` if truthy) before the
error reaches the caller. -/
theorem getRate_error_status_fallback (p : Provider) (apiKey : Option String)
    (f t : String) (st : Store) (status : Nat) (body : Option JsValue)
    (now : ℚ) (today : String)
    (hft : f ≠ t) (hcred : ¬ (p.requiresApiKey = true ∧ ¬ hasApiKey apiKey = true))
    (hstatus : ¬ (200 ≤ status ∧ status < 300)) :
    getRate p apiKey f t st (.success status body) now today =
      (if truthy (psGet st "rates" (rateKey p f t)) then
         .ok (tagSource (psGet st "rates" (rateKey p f t)) "cache")
       else .error (if status = 401 ∨ status = 403 then .invalidApiKey
                    else .networkError status),
       st, [.netFetch (rateUrl p apiKey f t), .storeRead "rates" (rateKey p f t)]) := by
  have hfp : fetchParse p f t (.success status body) now today
      = .error (if status = 401 ∨ status = 403 then .invalidApiKey
                else .networkError status) := by
    simp only [fetchParse]
    rw [if_neg hstatus]
    split_ifs <;> rfl
  rw [getRate, if_neg hft, if_neg hcred, hfp]
  split_ifs with htr <;> rfl

/-- C5 witness: with an empty cache, a 500 response surfaces
`NetworkError 500` and a 401 response surfaces the invalid-credential
error, each after the (empty) cache was consulted. -/
theorem getRate_error_status_fallback_witness :
    getRate .frankfurter none "USD" "EUR" emptyIdbStore (.success 500 none) 1 "2025-10-11"
      = (.error (.networkError 500), emptyIdbStore,
         [.netFetch (rateUrl .frankfurter none "USD" "EUR"),
          .storeRead "rates" (rateKey .frankfurter "USD" "EUR")]) ∧
    getRate .frankfurter none "USD" "EUR" emptyIdbStore (.success 401 none) 1 "2025-10-11"
      = (.error .invalidApiKey, emptyIdbStore,
         [.netFetch (rateUrl .frankfurter none "USD" "EUR"),
          .storeRead "rates" (rateKey .frankfurter "USD" "EUR")]) :=
  ⟨(getRate_error_status_fallback .frankfurter none "USD" "EUR" emptyIdbStore 500 none
      1 "2025-10-11" (by decide) (by decide) (by decide)).trans rfl,
   (getRate_error_status_fallback .frankfurter none "USD" "EUR" emptyIdbStore 401 none
      1 "2025-10-11" (by decide) (by decide) (by decide)).trans rfl⟩

/-- C2: after a successful USD→EUR fetch with rate 0.92 the parsed
record is persisted, so a subsequent call over the resulting store
whose fetch fails returns the same rate 0.92 tagged `cache`; and on
any fetch or parse failure with no (truthy) cached record for the key,
`getRate` propagates the original error. -/
theorem rate_cache_round_trip (st : Store) (now now2 : ℚ) (today today2 : String) :
    ((getRate .frankfurter none "USD" "EUR" st (.success 200 (some frankBody092)) now today).1
        = .ok (tagSource (networkRecord092 now) "network") ∧
      jsGetD (tagSource (networkRecord092 now) "network") "rate" = .num rate092) ∧
    ((getRate .frankfurter none "USD" "EUR"
          (getRate .frankfurter none "USD" "EUR" st
            (.success 200 (some frankBody092)) now today).2.1
          .failure now2 today2).1
        = .ok (tagSource (networkRecord092 now) "cache") ∧
      jsGetD (tagSource (networkRecord092 now) "cache") "rate" = .num rate092 ∧
      jsGetD (tagSource (networkRecord092 now) "cache") "source" = .str "cache") ∧
    (∀ (p : Provider) (apiKey : Option String) (f t : String) (st' : Store)
        (net : FetchOutcome) (e : RateError),
        f ≠ t → ¬ (p.requiresApiKey = true ∧ ¬ hasApiKey apiKey = true) →
        fetchParse p f t net now today = .error e →
        truthy (psGet st' "rates" (rateKey p f t)) = false →
        (getRate p apiKey f t st' net now today).1 = .error e) := by
  have hfp : fetchParse .frankfurter "USD" "EUR" (.success 200 (some frankBody092)) now today
      = .ok (networkRecord092 now) := rfl
  have hpath : getRate .frankfurter none "USD" "EUR" st
      (.success 200 (some frankBody092)) now today
      = (.ok (tagSource (networkRecord092 now) "network"),
         psSet st "rates" (rateKey .frankfurter "USD" "EUR") (networkRecord092 now),
         [.netFetch (rateUrl .frankfurter none "USD" "EUR"),
          .storeWrite "rates" (rateKey .frankfurter "USD" "EUR") (networkRecord092 now)]) := by
    rw [getRate, if_neg (by decide), if_neg (by decide), hfp]
  have hwrap : wrapRecord (rateKey .frankfurter "USD" "EUR") (networkRecord092 now)
      = networkRecord092 now := rfl
  have hread : psGet (psSet st "rates" (rateKey .frankfurter "USD" "EUR")
        (networkRecord092 now)) "rates" (rateKey .frankfurter "USD" "EUR")
      = networkRecord092 now := by
    rw [psGet_psSet_keyDomain st "rates" (rateKey .frankfurter "USD" "EUR")
          (networkRecord092 now) rfl, hwrap]
    have hdat : jsField (networkRecord092 now) "data" = none := rfl
    rw [hdat, ite_self]
  refine ⟨⟨?_, rfl⟩, ⟨?_, rfl, rfl⟩, ?_⟩
  · rw [hpath]
  · rw [hpath]
    have hfail : fetchParse .frankfurter "USD" "EUR" .failure now2 today2
        = .error .fetchFailed := rfl
    rw [getRate, if_neg (by decide), if_neg (by decide), hfail]
    simp only [hread]
    rw [if_pos (by rfl)]
  · intro p apiKey f t st' net e hft hcred hfpe hfalse
    rw [getRate, if_neg hft, if_neg hcred, hfpe]
    simp [hfalse]

/-- C2 witness: the round trip on a concrete empty structured store,
and error propagation for a transport failure over an empty flat
store. -/
theorem rate_cache_round_trip_witness :
    (getRate .frankfurter none "USD" "EUR"
        (getRate .frankfurter none "USD" "EUR" emptyIdbStore
          (.success 200 (some frankBody092)) 7 "2025-01-02").2.1
        .failure 8 "2025-01-03").1
      = .ok (tagSource (networkRecord092 7) "cache") ∧
    (getRate .frankfurter none "USD" "EUR" emptyFlatStore .failure 7 "2025-01-02").1
      = .error .fetchFailed :=
  ⟨((rate_cache_round_trip emptyIdbStore 7 8 "2025-01-02" "2025-01-03").2.1).1,
   (rate_cache_round_trip emptyFlatStore 7 8 "2025-01-02" "2025-01-03").2.2
     .frankfurter none "USD" "EUR" emptyFlatStore .failure .fetchFailed
     (by decide) (by decide) rfl rfl⟩

/-- C3 (code bug): with the unirateapi provider and no API key
configured, the structured backend holds a previously persisted
currency-list record — `put` keyed it by its `provider` property
(`'unirateapi'`, the currencies store's keyPath) — yet `loadCurrencies`
still fails with the API-key-required error: its
`persistentStorage.get('currencies', 'currencies-cache-unirateapi')`
looks that string up as the primary key, no record carries it, the read
resolves `null`, and the `cached && cached.data` guard never fires.
The same record on the flat fallback backend is returned, and
`getRate`'s missing-credential branch returns its cached record tagged
`cache` — both as the claim states. -/
theorem loadCurrencies_cached_credential_bug :
    c3IdbStore.idb "currencies" (.str "unirateapi")
        = some (spreadSet c3StoredCurrencies "key" (.str (currKey .unirateapi))) ∧
    psGet c3IdbStore "currencies" (currKey .unirateapi) = .null ∧
    (loadCurrencies .unirateapi none c3IdbStore .failure 10).1 = .error .apiKeyRequired ∧
    (loadCurrencies .unirateapi none c3FlatStore .failure 10).1 = .ok currMapUSD ∧
    (getRate .unirateapi none "USD" "EUR" c3RateStore .failure 11 "2025-10-11").1
      = .ok (tagSource c3RateRecord "cache") :=
  ⟨rfl, rfl, rfl, rfl, rfl⟩

/-- C8 counterexample: a unirateapi code list `["usd"]` is parsed,
returned and persisted with the key `usd`, which is not 3 uppercase
letters; and a frankfurter response is returned unvalidated, so even a
6-character key survives. -/
theorem currencyKeys_counterexample :
    (loadCurrencies .unirateapi (some "K") emptyIdbStore
        (.success 200 (some (.arr [.str "usd"]))) 3).1 = .ok (.obj [("usd", .str "usd")]) ∧
    ¬ isUpperCode3 "usd" ∧
    (loadCurrencies .frankfurter none emptyIdbStore
        (.success 200 (some (.obj [("United", .str "United States Dollar")]))) 3).1
      = .ok (.obj [("United", .str "United States Dollar")]) ∧
    ¬ isUpperCode3 "United" :=
  ⟨rfl, fun h => absurd (h.2 'u' (by decide)) (by decide),
   rfl, fun h => absurd h.1 (by decide)⟩

/-- C8 amended: for the unirateapi provider, the mapping produced by a
successful network parse — the same mapping `loadCurrencies` returns
and persists inside its cache record — has keys of length exactly 3;
upper-caseness is not enforced, and frankfurter responses are returned
and persisted without key validation. -/
theorem currencyKeys_amended (apiKey : Option String) (st : Store) (status : Nat)
    (json m : JsValue) (now : ℚ)
    (hkey : hasApiKey apiKey = true) (h1 : 200 ≤ status) (h2 : status < 300)
    (hparse : parseUniCurrencies json = .ok m) :
    loadCurrencies .unirateapi apiKey st (.success status (some json)) now
      = (.ok m,
         psSet st "currencies" (currKey .unirateapi) (currCacheData .unirateapi m now),
         [.netFetch (currenciesUrl .unirateapi apiKey),
          .storeWrite "currencies" (currKey .unirateapi) (currCacheData .unirateapi m now)]) ∧
    (∀ k ∈ objKeys m, k.length = 3) := by
  have hfpc : fetchParseCurrencies .unirateapi (.success status (some json)) = .ok m := by
    simp only [fetchParseCurrencies]
    rw [if_pos ⟨h1, h2⟩]
    simp [parseCurrencies, hparse]
  constructor
  · rw [loadCurrencies, if_neg (by simp [hkey, Provider.requiresApiKey]), hfpc]
  · exact parseUniCurrencies_keys hparse

/-- C8 amended witness: the code list `["USD"]` parses to a mapping
with the single 3-character key `USD`, which is returned and
persisted. -/
theorem currencyKeys_amended_witness :
    loadCurrencies .unirateapi (some "K") emptyIdbStore
        (.success 200 (some (.arr [.str "USD"]))) 3
      = (.ok (.obj [("USD", .str "USD")]),
         psSet emptyIdbStore "currencies" (currKey .unirateapi)
           (currCacheData .unirateapi (.obj [("USD", .str "USD")]) 3),
         [.netFetch (currenciesUrl .unirateapi (some "K")),
          .storeWrite "currencies" (currKey .unirateapi)
            (currCacheData .unirateapi (.obj [("USD", .str "USD")]) 3)]) ∧
    (∀ k ∈ objKeys (.obj [("USD", .str "USD")]), k.length = 3) :=
  currencyKeys_amended (some "K") emptyIdbStore 200 (.arr [.str "USD"])
    (.obj [("USD", .str "USD")]) 3 rfl (by norm_num) (by norm_num) rfl

end CurrencyConverter
